import Mathlib

/-!
Shallow embedding of the concurrency core of the podman task driver
(`src/handle.go` and the stats-broadcaster API file), together with proofs
of its specified properties.

Time is modelled as `Nat` (nanoseconds since an epoch); Go `error` values
are modelled as `Option String` (`none` = nil error) or by small inductive
types where the code discriminates error identities (`errors.Is`);
channels appear as the events they carry or as `Nat` identifiers where the
code compares channel handles.
-/

namespace Podman

/-- `drivers.TaskState`: the lifecycle states the handle code uses. -/
inductive TaskState where
  | running
  | exited
  | unknown
deriving DecidableEq, Repr

/-- `drivers.ExitResult`: exit code, signal, OOM flag and optional error.
The handle stores a *pointer* to this record; nullability of the pointer is
modelled by `Option ExitResult` in `HandleState`. -/
structure ExitResult where
  exitCode : Int
  signal : Int
  oomKilled : Bool
  err : Option String
deriving DecidableEq, Repr

/-- `api.ContainerStats`: the per-container counters the handle caches
(fields actually read by `handle.go`). -/
structure ContainerStats where
  containerID : String
  cpuNano : Nat
  cpuSystemNano : Nat
  memUsage : Nat
  memLimit : Nat
deriving DecidableEq, Repr

/-- The fields of `TaskHandle` guarded by `stateLock` (declaration order of
`handle.go` lines 42-49), plus the container identifier the loops compare
against.  `exitResult` is the nullable pointer field. -/
structure HandleState where
  taskConfigId : String
  taskConfigName : String
  procState : TaskState
  startedAt : Nat
  logPointer : Nat
  completedAt : Nat
  exitResult : Option ExitResult
  containerStats : ContainerStats
deriving DecidableEq, Repr

/-- `drivers.TaskStatus` as built by `taskStatus` (`handle.go` 54-69). -/
structure TaskStatus where
  id : String
  name : String
  state : TaskState
  startedAt : Nat
  completedAt : Nat
  exitResult : Option ExitResult
deriving DecidableEq, Repr

/-- `TaskHandle.taskStatus` (`handle.go` 54-69): a snapshot of the guarded
fields, taken in one critical section under the read lock. -/
def taskStatus (h : HandleState) : TaskStatus :=
  { id := h.taskConfigId
    name := h.taskConfigName
    state := h.procState
    startedAt := h.startedAt
    completedAt := h.completedAt
    exitResult := h.exitResult }

/-- `TaskHandle.isRunning` (`handle.go` 71-75). -/
def isRunning (h : HandleState) : Bool :=
  h.procState = TaskState.running

/-! ## Exit watcher (`runExitWatcher`, `handle.go` 77-102)

One loop iteration reads `isRunning` and, if still running, suspends on a
`select` between the cancellation context and a one-second timer.  An
iteration is therefore modelled by a pair: the `Bool` the `isRunning` call
returned, and which arm of the `select` fired.  The deferred function runs
on every return path: it re-reads `h.exitResult` under the lock, sends it
on the exit channel, and closes the channel. -/

/-- Which arm of the watcher's `select` fires in one iteration. -/
inductive WatchEvent where
  | cancelled
  | tick
deriving DecidableEq, Repr

/-- Why the watcher's `for` loop returned. -/
inductive WatchReturn where
  | notRunning
  | cancelled
deriving DecidableEq, Repr

/-- Events observable on the exit-result delivery channel. -/
inductive ChanEvent where
  | sent (r : Option ExitResult)
  | closed
deriving DecidableEq, Repr

/-- The `for` loop of `runExitWatcher`: per iteration, the environment
supplies the value `isRunning` returns and the `select` arm that fires.
Returns `none` when the observation trace runs out with the loop still
spinning. -/
def exitWatcherLoop : List (Bool × WatchEvent) → Option WatchReturn
  | [] => none
  | (running, ev) :: rest =>
    if !running then some WatchReturn.notRunning
    else
      match ev with
      | WatchEvent.cancelled => some WatchReturn.cancelled
      | WatchEvent.tick => exitWatcherLoop rest

/-- `runExitWatcher`: the channel events it produces.  `resultAtReturn` is
the value `h.exitResult` holds when the deferred function reads it.  The
deferred send-and-close runs on every return path of the loop. -/
def runExitWatcher (obs : List (Bool × WatchEvent))
    (resultAtReturn : Option ExitResult) : List ChanEvent :=
  match exitWatcherLoop obs with
  | none => []
  | some _ => [ChanEvent.sent resultAtReturn, ChanEvent.closed]

/-! ## Container monitor (`runContainerMonitor`, `handle.go` 193-265)

Each `select` iteration consumes one event: driver-context cancellation, a
stats batch, or a broadcaster error.  On a broadcaster error the code
probes `ContainerStats` directly; only `ContainerNotFound` /
`ContainerWrongState` count as "gone".  On gone it calls
`ContainerInspect` and resolves the final status, writing through the
`h.exitResult` pointer with no nil check — a nil pointer there is a
runtime panic, modelled by the step returning `none`. -/

/-- Identity of a non-nil error from `API.ContainerStats`, as discriminated
by `errors.Is` in the monitor. -/
inductive StatsErr where
  | notFound
  | wrongState
  | other (msg : String)
deriving DecidableEq, Repr

/-- Outcome of the direct `ContainerStats` probe: `ok` = nil error. -/
inductive ProbeResult where
  | ok
  | fail (e : StatsErr)
deriving DecidableEq, Repr

/-- The fields of `ContainerInspect`'s `.State` that the monitor reads. -/
structure InspectState where
  exitCode : Int
  error : String
  finishedAt : Nat
  oomKilled : Bool
deriving DecidableEq, Repr

/-- One event consumed by the monitor's `select`.  For an `errEvent` the
environment also supplies the probe outcome, the inspect outcome (used
only when the probe says gone) and the current time `time.Now()`. -/
inductive MonitorEvent where
  | cancel
  | batch (stats : List ContainerStats)
  | errEvent (probe : ProbeResult) (inspect : Except String InspectState) (now : Nat)
deriving Repr

/-- The `errors.Is(..., ContainerNotFound) || errors.Is(..., ContainerWrongState)`
test (`handle.go` 225-230). -/
def isGone : StatsErr → Bool
  | StatsErr.notFound => true
  | StatsErr.wrongState => true
  | StatsErr.other _ => false

/-- The exit error recorded when inspect itself fails
(`fmt.Errorf("Driver was unable to get the exit code. %s: %w", ...)`). -/
def driverUnableMsg (cid : String) (inner : String) : String :=
  "Driver was unable to get the exit code. " ++ cid ++ ": " ++ inner

/-- The dedicated OOM-kill exit error. -/
def oomKilledMsg : String := "podman container killed by OOM killer"

/-- The critical section of the monitor's death path (`handle.go` 235-256),
entered after a confirmed-dead probe with `inspect` the result of
`ContainerInspect` and `now` the `time.Now()` of line 236.  Returns `none`
when the Go code would dereference a nil `h.exitResult`. -/
def monitorDeath (cid : String) (h : HandleState)
    (inspect : Except String InspectState) (now : Nat) : Option HandleState :=
  match h.exitResult with
  | none => none
  | some r =>
    match inspect with
    | Except.error e =>
      some { h with
        completedAt := now
        exitResult := some { r with err := some (driverUnableMsg cid e), signal := 0 }
        procState := TaskState.exited }
    | Except.ok d =>
      let r1 : ExitResult := { r with exitCode := d.exitCode }
      let r2 : ExitResult :=
        if d.error.length > 0 then { r1 with err := some d.error } else r1
      let r3 : ExitResult :=
        if d.oomKilled then { r2 with oomKilled := true, err := some oomKilledMsg } else r2
      some { h with
        completedAt := d.finishedAt
        exitResult := some r3
        procState := TaskState.exited }

/-- One `select` iteration of `runContainerMonitor`.  Result: `none` = the
Go code panics (nil `exitResult` dereference on the death path); otherwise
the new handle state and whether the loop returned. -/
def monitorStep (cid : String) (h : HandleState) :
    MonitorEvent → Option (HandleState × Bool)
  | MonitorEvent.cancel => some (h, true)
  | MonitorEvent.batch stats =>
    match stats.find? (fun s => s.containerID == cid) with
    | some s => some ({ h with containerStats := s }, false)
    | none => some (h, false)
  | MonitorEvent.errEvent probe inspect now =>
    match probe with
    | ProbeResult.ok => some (h, false)
    | ProbeResult.fail e =>
      if isGone e then
        match monitorDeath cid h inspect now with
        | none => none
        | some h' => some (h', true)
      else
        some (h, false)

/-- The monitor run over a list of events: the final state and whether it
returned, or `none` if some step panicked.  Events after a return are
unconsumed. -/
def runMonitor (cid : String) (h : HandleState) :
    List MonitorEvent → Option (HandleState × Bool)
  | [] => some (h, false)
  | e :: es =>
    match monitorStep cid h e with
    | none => none
    | some (h', true) => some (h', true)
    | some (h', false) => runMonitor cid h' es

/-- The states of the handle after each processed monitor step (stopping at
the monitor's return or at a panic). -/
def monitorTrace (cid : String) (h : HandleState) :
    List MonitorEvent → List HandleState
  | [] => []
  | e :: es =>
    match monitorStep cid h e with
    | none => []
    | some (h', true) => [h']
    | some (h', false) => h' :: monitorTrace cid h' es

/-- Number of adjacent `Running → Exited` transitions in a state sequence. -/
def transCount : List HandleState → Nat
  | [] => 0
  | [_] => 0
  | a :: b :: rest =>
    (if a.procState = TaskState.running ∧ b.procState = TaskState.exited
     then 1 else 0) + transCount (b :: rest)

/-! ## Stats broadcaster (`containerStatsBroadcaster.serve`, api file 110-164)

Channels are modelled by `Nat` identifiers (the Go code compares channel
handles with `==`).  The serve loop owns the two listener lists; closing a
channel is recorded by appending its identifier to a `closed` journal, so
"closes exactly once" is the count of an identifier in that journal.
Broadcast delivery uses a per-listener `select`/`default`: the environment
supplies each listener's instantaneous readiness. -/

/-- The broadcaster state owned by the serve loop, plus journals of the
`close` calls it has performed. -/
structure BroadcasterState where
  statsListeners : List Nat
  errListeners : List Nat
  closedStats : List Nat
  closedErrs : List Nat
deriving DecidableEq, Repr

/-- `append(l[:i], l[i+1:]...)` after a linear scan with `break`: removes
the first occurrence of `c`; the `Bool` says whether it was found (and
hence closed). -/
def removeFirst : List Nat → Nat → List Nat × Bool
  | [], _ => ([], false)
  | x :: xs, c =>
    if x = c then (xs, true)
    else ((x :: (removeFirst xs c).1), (removeFirst xs c).2)

/-- The `removeStatsListener` arm of the serve loop (api file 132-139):
remove the first matching listener (if any) and close it. -/
def serveRemoveStats (s : BroadcasterState) (ch : Nat) : BroadcasterState :=
  { s with
    statsListeners := (removeFirst s.statsListeners ch).1
    closedStats :=
      if (removeFirst s.statsListeners ch).2 then s.closedStats ++ [ch]
      else s.closedStats }

/-- The `removeErrListener` arm of the serve loop (api file 140-147). -/
def serveRemoveErr (s : BroadcasterState) (ch : Nat) : BroadcasterState :=
  { s with
    errListeners := (removeFirst s.errListeners ch).1
    closedErrs :=
      if (removeFirst s.errListeners ch).2 then s.closedErrs ++ [ch]
      else s.closedErrs }

/-- `CancelSubscription` (api file 105-108): one remove message per
channel, each handled by the corresponding serve-loop arm. -/
def cancelSubscription (s : BroadcasterState) (ch errCh : Nat) : BroadcasterState :=
  serveRemoveErr (serveRemoveStats s ch) errCh

/-- The broadcast arms of the serve loop (api file 148-161): for each
listener in order, a `select` with a `default` — deliver if the listener's
channel is instantaneously ready, otherwise skip.  Returns the attempt
list: one entry per listener, `true` = delivered. -/
def serveBroadcast (listeners : List Nat) (ready : Nat → Bool) :
    List (Nat × Bool) :=
  listeners.map (fun l => (l, ready l))

/-! ## Log streamer (`runLogStreamer`, `handle.go` 150-191)

Each loop iteration checks the context (modelled by a `cancelled`
outcome), then calls `ContainerLogs(ctx, cid, since, ...)`.  An error
interrupts the stream: the cursor `since` is advanced to `time.Now()` and
persisted to `h.logPointer`; a nil error ends the loop. -/

/-- Outcome of one `runLogStreamer` iteration: the context was already
cancelled, or `ContainerLogs` returned an error at wall-clock `now`, or it
returned nil. -/
inductive LogOutcome where
  | cancelled
  | interrupted (now : Nat)
  | finished
deriving DecidableEq, Repr

/-- The `for` loop of `runLogStreamer`, started with cursor `since`.
Returns the `since` value used by each `ContainerLogs` call (in order) and
the successive values written to `h.logPointer` (in order). -/
def logStreamerLoop (since : Nat) : List LogOutcome → List Nat × List Nat
  | [] => ([], [])
  | LogOutcome.cancelled :: _ => ([], [])
  | LogOutcome.finished :: _ => ([since], [])
  | LogOutcome.interrupted t :: rest =>
    (since :: (logStreamerLoop t rest).1, t :: (logStreamerLoop t rest).2)

/-- The `interrupted` times of an outcome list, in order. -/
def allTimes : List LogOutcome → List Nat
  | [] => []
  | LogOutcome.interrupted t :: rest => t :: allTimes rest
  | _ :: rest => allTimes rest

/-! ## Lock-discipline access traces (`handle.go`)

The guarded fields are exactly those declared below `stateLock`
(`handle.go` 42-49).  Each function's accesses to them are transcribed in
source order, annotated with the lock state the code holds at that point
(`rlocked` = `RLock`, `wlocked` = `Lock`, `noLock` = neither). -/

/-- The `TaskHandle` fields guarded by `stateLock`. -/
inductive GField where
  | taskConfig
  | procState
  | startedAt
  | logPointer
  | completedAt
  | exitResult
  | containerStats
deriving DecidableEq, Repr

/-- Lock state held at an access. -/
inductive LockMode where
  | noLock
  | rlocked
  | wlocked
deriving DecidableEq, Repr

/-- Read or write. -/
inductive AccessKind where
  | read
  | write
deriving DecidableEq, Repr

/-- One access to a guarded field. -/
structure Access where
  field : GField
  kind : AccessKind
  lock : LockMode
deriving DecidableEq, Repr

/-- Accesses of `taskStatus` (`handle.go` 54-69): all reads inside the
`RLock`/`RUnlock` pair. -/
def taskStatusAccesses : List Access :=
  [ ⟨GField.taskConfig, AccessKind.read, LockMode.rlocked⟩
  , ⟨GField.taskConfig, AccessKind.read, LockMode.rlocked⟩
  , ⟨GField.procState, AccessKind.read, LockMode.rlocked⟩
  , ⟨GField.startedAt, AccessKind.read, LockMode.rlocked⟩
  , ⟨GField.completedAt, AccessKind.read, LockMode.rlocked⟩
  , ⟨GField.exitResult, AccessKind.read, LockMode.rlocked⟩ ]

/-- Accesses of `isRunning` (`handle.go` 71-75). -/
def isRunningAccesses : List Access :=
  [ ⟨GField.procState, AccessKind.read, LockMode.rlocked⟩ ]

/-- Accesses of `runExitWatcher`'s deferred function (`handle.go` 84-86):
the `exitResult` read under the exclusive lock. -/
def exitWatcherAccesses : List Access :=
  [ ⟨GField.exitResult, AccessKind.read, LockMode.wlocked⟩ ]

/-- Accesses of one `runStatsEmitter` tick (`handle.go` 117-135): four
`containerStats` reads under the exclusive lock. -/
def statsEmitterAccesses : List Access :=
  [ ⟨GField.containerStats, AccessKind.read, LockMode.wlocked⟩
  , ⟨GField.containerStats, AccessKind.read, LockMode.wlocked⟩
  , ⟨GField.containerStats, AccessKind.read, LockMode.wlocked⟩
  , ⟨GField.containerStats, AccessKind.read, LockMode.wlocked⟩ ]

/-- Accesses of `runLogStreamer` (`handle.go` 150-191): the
`taskConfig.StdoutPath` / `taskConfig.StderrPath` reads (lines 151, 157)
and the initial `logPointer` read (line 165) happen with no lock held;
the `logPointer` write after an interruption (line 182) is under the
exclusive lock. -/
def logStreamerAccesses : List Access :=
  [ ⟨GField.taskConfig, AccessKind.read, LockMode.noLock⟩
  , ⟨GField.taskConfig, AccessKind.read, LockMode.noLock⟩
  , ⟨GField.logPointer, AccessKind.read, LockMode.noLock⟩
  , ⟨GField.logPointer, AccessKind.write, LockMode.wlocked⟩ ]

/-- Accesses of `runContainerMonitor` (`handle.go` 202-257): the stats
cache write and the whole death-path critical section are under the
exclusive lock. -/
def containerMonitorAccesses : List Access :=
  [ ⟨GField.containerStats, AccessKind.write, LockMode.wlocked⟩
  , ⟨GField.completedAt, AccessKind.write, LockMode.wlocked⟩
  , ⟨GField.exitResult, AccessKind.write, LockMode.wlocked⟩
  , ⟨GField.completedAt, AccessKind.write, LockMode.wlocked⟩
  , ⟨GField.procState, AccessKind.write, LockMode.wlocked⟩ ]

/-- All transcribed accesses to `stateLock`-guarded fields. -/
def allGuardedAccesses : List Access :=
  taskStatusAccesses ++ isRunningAccesses ++ exitWatcherAccesses ++
    statsEmitterAccesses ++ logStreamerAccesses ++ containerMonitorAccesses

/-! ## Concrete example data -/

/-- The zero-valued `drivers.ExitResult{}` a freshly started handle points
at: writing the death path through `h.exitResult` without a nil check only
works when a Running handle already carries such a pre-allocated result. -/
def zeroExit : ExitResult :=
  { exitCode := 0, signal := 0, oomKilled := false, err := none }

/-- A Running handle with the pre-allocated zero-valued exit result. -/
def preallocInit : HandleState :=
  { taskConfigId := "task1"
    taskConfigName := "redis"
    procState := TaskState.running
    startedAt := 1
    logPointer := 1
    completedAt := 0
    exitResult := some zeroExit
    containerStats := ⟨"c1", 0, 0, 0, 0⟩ }

/-- A confirmed-dead broadcast error: the direct probe reports
`ContainerNotFound` and the follow-up inspect succeeds. -/
def deadEvent : MonitorEvent :=
  MonitorEvent.errEvent (ProbeResult.fail StatsErr.notFound)
    (Except.ok { exitCode := 137, error := "", finishedAt := 42, oomKilled := false }) 40

/-- Whether a monitor event is a confirmed-dead signal: a broadcast error
whose direct probe failed with `ContainerNotFound` or
`ContainerWrongState`. -/
def confirmedDead : MonitorEvent → Bool
  | MonitorEvent.errEvent (ProbeResult.fail e) _ _ => isGone e
  | _ => false

/-! ## Theorems -/

/-- C1 counterexample: with the container still running at every
observation (the single `isRunning` read returns `true`) and the
cancellation signal firing, the watcher's return path still emits a send
on the exit-result delivery channel — the deferred function sends on every
return path, so "returns without ever sending" is false. -/
theorem C1_counterexample :
    exitWatcherLoop [(true, WatchEvent.cancelled)] = some WatchReturn.cancelled ∧
    runExitWatcher [(true, WatchEvent.cancelled)] none =
      [ChanEvent.sent none, ChanEvent.closed] := by
  exact ⟨rfl, rfl⟩

/-- C1 (amended): whenever `runExitWatcher`'s loop returns — whether it
observed the state non-running or was cancelled while the container was
still running — the deferred function sends the exit result read at return
time on the delivery channel exactly once and then closes the channel. -/
theorem C1_watcher_always_sends (obs : List (Bool × WatchEvent))
    (r : Option ExitResult) (h : (exitWatcherLoop obs).isSome = true) :
    runExitWatcher obs r = [ChanEvent.sent r, ChanEvent.closed] := by
  unfold runExitWatcher
  cases hcase : exitWatcherLoop obs with
  | none => rw [hcase] at h; exact absurd h (by simp)
  | some w => rfl

/-- C1 witness: a run that observes non-running and therefore returns,
sending the pre-read exit result and closing the channel. -/
theorem C1_watcher_always_sends_witness :
    runExitWatcher [(true, WatchEvent.tick), (false, WatchEvent.tick)]
        (some zeroExit) =
      [ChanEvent.sent (some zeroExit), ChanEvent.closed] :=
  C1_watcher_always_sends _ _ (by decide)

/-- C9: the monitor's death-handling path (writing `h.exitResult.Err`,
`.Signal`, `.ExitCode`, `.OOMKilled` with no nil check) panics exactly
when the handle's `exitResult` pointer is nil at a confirmed-dead event;
for every other event, and whenever `exitResult` is non-nil, the step is
well-defined — so the monitor is free of nil-pointer dereference precisely
under the precondition that a Running handle carries a pre-allocated
exit result. -/
theorem C9_death_path_requires_prealloc (cid : String) (h : HandleState)
    (e : MonitorEvent) :
    monitorStep cid h e = none ↔
      (h.exitResult = none ∧ confirmedDead e = true) := by
  cases e with
  | cancel => simp [monitorStep, confirmedDead]
  | batch stats =>
    simp only [monitorStep, confirmedDead]
    cases stats.find? (fun s => s.containerID == cid) <;> simp
  | errEvent probe inspect now =>
    cases probe with
    | ok => simp [monitorStep, confirmedDead]
    | fail e' =>
      simp only [monitorStep, confirmedDead]
      by_cases hg : isGone e' = true
      · simp only [hg, if_true]
        cases hres : h.exitResult with
        | none => simp [monitorDeath, hres]
        | some r =>
          cases inspect with
          | error msg => simp [monitorDeath, hres]
          | ok d => simp [monitorDeath, hres]
      · simp [hg]

/-- C10: the struct comment (`handle.go` line 39) and the claim say every
access to the fields below `stateLock` is made holding the lock, but
`runLogStreamer` reads `taskConfig.StdoutPath`/`StderrPath` (lines 151 and
157) and `logPointer` (line 165) with no lock held — exactly three
transcribed accesses to guarded fields are lock-free, all of them in
`runLogStreamer`. -/
theorem C10_unlocked_guarded_accesses :
    Access.mk GField.logPointer AccessKind.read LockMode.noLock ∈
      logStreamerAccesses ∧
    Access.mk GField.taskConfig AccessKind.read LockMode.noLock ∈
      logStreamerAccesses ∧
    (allGuardedAccesses.filter (fun a => a.lock = LockMode.noLock)).length = 3 ∧
    (allGuardedAccesses.filter
      (fun a => a.lock = LockMode.noLock)).all
        (fun a => a ∈ logStreamerAccesses) = true := by
  exact ⟨by decide, by decide, by decide, by decide⟩

/-- A monitor step that does not return leaves `procState` and
`exitResult` unchanged (only the cached stats may change). -/
lemma monitorStep_continue {cid : String} {h h' : HandleState}
    {e : MonitorEvent} (hs : monitorStep cid h e = some (h', false)) :
    h'.procState = h.procState ∧ h'.exitResult = h.exitResult := by
  cases e with
  | cancel => simp [monitorStep] at hs
  | batch stats =>
    simp only [monitorStep] at hs
    cases hfind : stats.find? (fun s => s.containerID == cid) with
    | none => rw [hfind] at hs; simp at hs; simp [← hs]
    | some s => rw [hfind] at hs; simp at hs; simp [← hs]
  | errEvent probe inspect now =>
    cases probe with
    | ok => simp [monitorStep] at hs; simp [← hs]
    | fail e' =>
      simp only [monitorStep] at hs
      by_cases hg : isGone e' = true
      · simp only [hg, if_true] at hs
        cases hd : monitorDeath cid h inspect now with
        | none => rw [hd] at hs; simp at hs
        | some hh => rw [hd] at hs; simp at hs
      · simp only [hg, if_false] at hs
        simp at hs
        simp [← hs]

/-- A successful `monitorDeath` always produces an Exited state with a
non-nil exit result. -/
lemma monitorDeath_some {cid : String} {h h' : HandleState}
    {inspect : Except String InspectState} {now : Nat}
    (hd : monitorDeath cid h inspect now = some h') :
    h'.procState = TaskState.exited ∧ h'.exitResult ≠ none := by
  unfold monitorDeath at hd
  cases hres : h.exitResult with
  | none => rw [hres] at hd; simp at hd
  | some r =>
    rw [hres] at hd
    cases inspect with
    | error msg => simp at hd; simp [← hd]
    | ok d => simp at hd; simp [← hd]

/-- A monitor step that returns either leaves the state untouched (the
cancellation arm) or is a death step: Exited with non-nil exit result. -/
lemma monitorStep_done {cid : String} {h h' : HandleState}
    {e : MonitorEvent} (hs : monitorStep cid h e = some (h', true)) :
    h' = h ∨ (h'.procState = TaskState.exited ∧ h'.exitResult ≠ none) := by
  cases e with
  | cancel => simp [monitorStep] at hs; exact Or.inl hs.symm
  | batch stats =>
    simp only [monitorStep] at hs
    cases hfind : stats.find? (fun s => s.containerID == cid) <;>
      rw [hfind] at hs <;> simp at hs
  | errEvent probe inspect now =>
    cases probe with
    | ok => simp [monitorStep] at hs
    | fail e' =>
      simp only [monitorStep] at hs
      by_cases hg : isGone e' = true
      · simp only [hg, if_true] at hs
        cases hd : monitorDeath cid h inspect now with
        | none => rw [hd] at hs; simp at hs
        | some hh =>
          rw [hd] at hs
          simp at hs
          exact Or.inr (hs ▸ monitorDeath_some hd)
      · simp only [hg, if_false] at hs; simp at hs

/-- Invariant of the monitor run from a Running handle: at most one
`Running → Exited` transition in the state trace, and every Exited trace
state has a non-nil exit result and is the last state of the trace (the
loop returns immediately after the transition). -/
lemma monitor_inv (cid : String) :
    ∀ (events : List MonitorEvent) (h : HandleState),
      h.procState = TaskState.running →
      transCount (h :: monitorTrace cid h events) ≤ 1 ∧
      (∀ s ∈ monitorTrace cid h events,
        s.procState = TaskState.exited →
          s.exitResult ≠ none ∧
          (monitorTrace cid h events).getLast? = some s) := by
  intro events
  induction events with
  | nil =>
    intro h hrun
    exact ⟨by simp [monitorTrace, transCount], by simp [monitorTrace]⟩
  | cons e es ih =>
    intro h hrun
    simp only [monitorTrace]
    cases hs : monitorStep cid h e with
    | none => exact ⟨by simp [transCount], by simp⟩
    | some p =>
      obtain ⟨h', d⟩ := p
      cases d with
      | true =>
        refine ⟨?_, ?_⟩
        · show transCount [h, h'] ≤ 1
          simp only [transCount]
          split <;> simp
        · intro s hmem hex
          simp only [List.mem_singleton] at hmem
          subst hmem
          rcases monitorStep_done hs with heq | ⟨_, hne⟩
          · rw [heq] at hex; rw [hrun] at hex; exact absurd hex (by simp)
          · exact ⟨hne, by simp⟩
      | false =>
        obtain ⟨hps, hres⟩ := monitorStep_continue hs
        have hrun' : h'.procState = TaskState.running := hps.trans hrun
        obtain ⟨iht, ihm⟩ := ih h' hrun'
        refine ⟨?_, ?_⟩
        · show transCount (h :: h' :: monitorTrace cid h' es) ≤ 1
          simp only [transCount]
          have : ¬ (h.procState = TaskState.running ∧
              h'.procState = TaskState.exited) := by
            rintro ⟨_, hx⟩
            rw [hrun'] at hx
            exact absurd hx (by simp)
          rw [if_neg this]
          simpa using iht
        · intro s hmem hex
          rcases List.mem_cons.mp hmem with heq | hmem'
          · subst heq
            rw [hrun'] at hex
            exact absurd hex (by simp)
          · obtain ⟨hne, hlast⟩ := ihm s hmem' hex
            refine ⟨hne, ?_⟩
            have hnil : monitorTrace cid h' es ≠ [] :=
              List.ne_nil_of_mem hmem'
            rw [List.getLast?_cons, hlast]
            cases htr : monitorTrace cid h' es with
            | nil => exact absurd htr hnil
            | cons a l => rw [htr] at hlast; simp [hlast]

/-- C2 counterexample: the monitor run from the pre-allocated Running
handle completes the transition without panic, yet at the run's initial
point the state is Running while the exit result is already non-nil — so
"exit result non-nil iff state Exited" fails; and starting instead from a
nil exit result, the very same event sequence makes the monitor panic
(nil dereference) instead of transitioning, so the iff cannot hold on any
run that actually reaches Exited. -/
theorem C2_counterexample :
    (runMonitor "c1" preallocInit [deadEvent]).isSome = true ∧
    preallocInit.procState = TaskState.running ∧
    preallocInit.exitResult ≠ none ∧
    runMonitor "c1" { preallocInit with exitResult := none } [deadEvent] =
      none := by
  exact ⟨by decide, by decide, by decide, by decide⟩

/-- C2 (amended): for every sequence of broadcast batches and errors fed
to the monitor from a Running handle, the state transitions from Running
to Exited at most once, and every Exited state of the trace has a non-nil
exit result and ends the trace (the loop returns immediately after the
transition).  The converse — non-nil only when Exited — fails: the death
path requires the Running handle to already carry a pre-allocated non-nil
exit result. -/
theorem C2_monitor_single_transition (cid : String) (h₀ : HandleState)
    (events : List MonitorEvent) (hrun : h₀.procState = TaskState.running) :
    transCount (h₀ :: monitorTrace cid h₀ events) ≤ 1 ∧
    ∀ s ∈ monitorTrace cid h₀ events,
      s.procState = TaskState.exited →
        s.exitResult ≠ none ∧
        (monitorTrace cid h₀ events).getLast? = some s :=
  monitor_inv cid events h₀ hrun

/-- C2 witness: the single-transition invariant evaluated on a concrete
confirmed-dead run. -/
theorem C2_monitor_single_transition_witness :
    preallocInit.procState = TaskState.running ∧
    (transCount (preallocInit :: monitorTrace "c1" preallocInit [deadEvent]) ≤ 1 ∧
    ∀ s ∈ monitorTrace "c1" preallocInit [deadEvent],
      s.procState = TaskState.exited →
        s.exitResult ≠ none ∧
        (monitorTrace "c1" preallocInit [deadEvent]).getLast? = some s) :=
  ⟨by decide,
   C2_monitor_single_transition "c1" preallocInit [deadEvent] (by decide)⟩

/-- C3 counterexample: `taskStatus` on the pre-allocated Running handle —
the pre-transition state of a monitor run that does reach Exited — returns
a snapshot with state Running and a non-nil exit result, refuting "never
returns Running with a non-nil exit result". -/
theorem C3_counterexample :
    (taskStatus preallocInit).state = TaskState.running ∧
    (taskStatus preallocInit).exitResult ≠ none ∧
    (runMonitor "c1" preallocInit [deadEvent]).isSome = true := by
  exact ⟨by decide, by decide, by decide⟩

/-- C3 (amended): at every state of a monitor run from a Running handle,
a `taskStatus` snapshot with state Exited has a non-nil exit result; a
Running snapshot, however, may carry the pre-allocated non-nil exit
result. -/
theorem C3_taskStatus_exited_nonnil (cid : String) (h₀ : HandleState)
    (events : List MonitorEvent) (hrun : h₀.procState = TaskState.running) :
    ∀ s ∈ h₀ :: monitorTrace cid h₀ events,
      (taskStatus s).state = TaskState.exited →
        (taskStatus s).exitResult ≠ none := by
  intro s hmem hex
  simp only [taskStatus] at hex ⊢
  rcases List.mem_cons.mp hmem with heq | hmem'
  · subst heq
    rw [hrun] at hex
    exact absurd hex (by simp)
  · exact ((monitor_inv cid events h₀ hrun).2 s hmem' hex).1

/-- C3 witness: the snapshot consistency evaluated on a concrete
confirmed-dead run. -/
theorem C3_taskStatus_exited_nonnil_witness :
    preallocInit.procState = TaskState.running ∧
    ∀ s ∈ preallocInit :: monitorTrace "c1" preallocInit [deadEvent],
      (taskStatus s).state = TaskState.exited →
        (taskStatus s).exitResult ≠ none :=
  ⟨by decide,
   C3_taskStatus_exited_nonnil "c1" preallocInit [deadEvent] (by decide)⟩

/-- C4: when inspect succeeds after a confirmed-dead signal and reports
`oomKilled = true`, the death step produces an Exited state whose exit
result has the OOM flag set and the dedicated OOM message as its error —
regardless of any runtime error string also reported — with the exit code
copied from the inspected state and the completion time set to the
reported finish time. -/
theorem C4_oom_overrides (cid : String) (h : HandleState) (r₀ : ExitResult)
    (e : StatsErr) (d : InspectState) (now : Nat)
    (hres : h.exitResult = some r₀) (hgone : isGone e = true)
    (hoom : d.oomKilled = true) :
    monitorStep cid h
        (MonitorEvent.errEvent (ProbeResult.fail e) (Except.ok d) now) =
      some ({ h with
        completedAt := d.finishedAt
        exitResult := some { exitCode := d.exitCode, signal := r₀.signal,
                             oomKilled := true, err := some oomKilledMsg }
        procState := TaskState.exited }, true) := by
  simp only [monitorStep, hgone, if_true, monitorDeath, hres]
  by_cases herr : d.error.length > 0
  · simp [herr, hoom]
  · simp [herr, hoom]

/-- C4 witness: OOM precedence on a concrete inspect report that carries
both a non-empty runtime error string and the OOM flag. -/
theorem C4_oom_overrides_witness :
    preallocInit.exitResult = some zeroExit ∧
    isGone StatsErr.wrongState = true ∧
    InspectState.oomKilled
      { exitCode := 137, error := "runtime failure", finishedAt := 42,
        oomKilled := true } = true ∧
    monitorStep "c1" preallocInit
        (MonitorEvent.errEvent (ProbeResult.fail StatsErr.wrongState)
          (Except.ok { exitCode := 137, error := "runtime failure",
                       finishedAt := 42, oomKilled := true }) 40) =
      some ({ preallocInit with
        completedAt := 42
        exitResult := some { exitCode := 137, signal := zeroExit.signal,
                             oomKilled := true, err := some oomKilledMsg }
        procState := TaskState.exited }, true) :=
  ⟨by decide, by decide, by decide,
   C4_oom_overrides "c1" preallocInit zeroExit StatsErr.wrongState
     { exitCode := 137, error := "runtime failure", finishedAt := 42,
       oomKilled := true } 40 (by decide) (by decide) (by decide)⟩

/-- C5: when inspect itself fails after a confirmed-dead signal, the death
step records the synthetic "Driver was unable to get the exit code"
error, sets the signal to 0, leaves the (pre-allocated, zero) exit code
at 0, sets the completion time to the current time, and transitions the
state to Exited. -/
theorem C5_inspect_failure (cid emsg : String) (h : HandleState)
    (r₀ : ExitResult) (e : StatsErr) (now : Nat)
    (hres : h.exitResult = some r₀) (hzero : r₀.exitCode = 0)
    (hgone : isGone e = true) :
    monitorStep cid h
        (MonitorEvent.errEvent (ProbeResult.fail e) (Except.error emsg) now) =
      some ({ h with
        completedAt := now
        exitResult := some { exitCode := 0, signal := 0,
                             oomKilled := r₀.oomKilled,
                             err := some (driverUnableMsg cid emsg) }
        procState := TaskState.exited }, true) := by
  simp only [monitorStep, hgone, if_true, monitorDeath, hres]
  simp [← hzero]

/-- C5 witness: the inspect-failure outcome on a concrete run. -/
theorem C5_inspect_failure_witness :
    preallocInit.exitResult = some zeroExit ∧
    zeroExit.exitCode = 0 ∧
    isGone StatsErr.notFound = true ∧
    monitorStep "c1" preallocInit
        (MonitorEvent.errEvent (ProbeResult.fail StatsErr.notFound)
          (Except.error "connection refused") 77) =
      some ({ preallocInit with
        completedAt := 77
        exitResult := some { exitCode := 0, signal := 0,
                             oomKilled := zeroExit.oomKilled,
                             err := some (driverUnableMsg "c1"
                               "connection refused") }
        procState := TaskState.exited }, true) :=
  ⟨by decide, by decide, by decide,
   C5_inspect_failure "c1" "connection refused" preallocInit zeroExit
     StatsErr.notFound 77 (by decide) (by decide) (by decide)⟩

/-- The attempt list of a broadcast covers exactly the listener list, in
order. -/
lemma serveBroadcast_fst (l : List Nat) (ready : Nat → Bool) :
    (serveBroadcast l ready).map Prod.fst = l := by
  induction l with
  | nil => rfl
  | cons x xs ih => exact congrArg (List.cons x) ih

/-- C6: for either broadcast arm of the serve loop, delivery is attempted
to every listener currently in the listener list, in order; a listener
receives the event exactly when its channel is immediately ready, and an
unready listener is skipped for that event (the `default` arm) — the loop
itself is a total function of the listeners' instantaneous readiness and
never waits on any of them. -/
theorem C6_broadcast_nonblocking (s : BroadcasterState) (ready : Nat → Bool) :
    ((serveBroadcast s.statsListeners ready).map Prod.fst = s.statsListeners ∧
      ∀ p ∈ serveBroadcast s.statsListeners ready, p.2 = ready p.1) ∧
    ((serveBroadcast s.errListeners ready).map Prod.fst = s.errListeners ∧
      ∀ p ∈ serveBroadcast s.errListeners ready, p.2 = ready p.1) := by
  refine ⟨⟨serveBroadcast_fst _ _, ?_⟩, ⟨serveBroadcast_fst _ _, ?_⟩⟩
  · intro p hp
    simp only [serveBroadcast, List.mem_map] at hp
    obtain ⟨l, _, rfl⟩ := hp
    rfl
  · intro p hp
    simp only [serveBroadcast, List.mem_map] at hp
    obtain ⟨l, _, rfl⟩ := hp
    rfl

/-- `removeFirst` on an absent identifier leaves the list unchanged and
reports nothing found. -/
lemma removeFirst_not_mem {l : List Nat} {c : Nat} (h : c ∉ l) :
    removeFirst l c = (l, false) := by
  induction l with
  | nil => rfl
  | cons x xs ih =>
    have hx : ¬ x = c := by
      rintro rfl
      exact h (List.mem_cons_self x xs)
    have hxs : c ∉ xs := fun hm => h (List.mem_cons_of_mem x hm)
    simp [removeFirst, hx, ih hxs]

/-- `removeFirst` reports found exactly when the identifier is present. -/
lemma removeFirst_found {l : List Nat} {c : Nat} :
    (removeFirst l c).2 = true ↔ c ∈ l := by
  induction l with
  | nil => simp [removeFirst]
  | cons x xs ih =>
    by_cases hx : x = c
    · subst hx
      simp [removeFirst]
    · simp [removeFirst, hx, ih]
      exact fun h => absurd h.symm hx

/-- If an identifier occurs at most once, it no longer occurs after
`removeFirst`. -/
lemma removeFirst_count_le_one {l : List Nat} {c : Nat}
    (hcount : l.count c ≤ 1) : c ∉ (removeFirst l c).1 := by
  induction l with
  | nil => simp [removeFirst]
  | cons x xs ih =>
    by_cases hx : x = c
    · subst hx
      simp only [removeFirst, if_pos rfl]
      have hc : xs.count x = 0 := by
        rw [List.count_cons_self] at hcount
        omega
      exact List.count_eq_zero.mp hc
    · simp only [removeFirst, if_neg hx]
      have hcount' : xs.count c ≤ 1 := by
        rw [List.count_cons_of_ne (fun h => hx h.symm)] at hcount
        exact hcount
      intro hm
      rcases List.mem_cons.mp hm with heq | hm'
      · exact hx heq.symm
      · exact ih hcount' hm'

/-- `serveRemoveStats` on an unregistered channel is the identity. -/
lemma serveRemoveStats_not_mem {s : BroadcasterState} {ch : Nat}
    (h : ch ∉ s.statsListeners) : serveRemoveStats s ch = s := by
  simp [serveRemoveStats, removeFirst_not_mem h]

/-- `serveRemoveErr` on an unregistered channel is the identity. -/
lemma serveRemoveErr_not_mem {s : BroadcasterState} {ch : Nat}
    (h : ch ∉ s.errListeners) : serveRemoveErr s ch = s := by
  simp [serveRemoveErr, removeFirst_not_mem h]

/-- C7: `CancelSubscription` on channel handles never registered with the
broadcaster leaves all lists and close journals unchanged; calling it a
second time on the same handles is a no-op; and on a currently registered
subscription it removes both listeners from the lists and appends each to
its close journal exactly once. -/
theorem C7_cancel_idempotent (s : BroadcasterState) (ch errCh : Nat)
    (hcs : s.statsListeners.count ch ≤ 1)
    (hce : s.errListeners.count errCh ≤ 1) :
    (ch ∉ s.statsListeners → errCh ∉ s.errListeners →
      cancelSubscription s ch errCh = s) ∧
    cancelSubscription (cancelSubscription s ch errCh) ch errCh =
      cancelSubscription s ch errCh ∧
    (ch ∈ s.statsListeners →
      ch ∉ (cancelSubscription s ch errCh).statsListeners ∧
      (cancelSubscription s ch errCh).closedStats.count ch =
        s.closedStats.count ch + 1) ∧
    (errCh ∈ s.errListeners →
      errCh ∉ (cancelSubscription s ch errCh).errListeners ∧
      (cancelSubscription s ch errCh).closedErrs.count errCh =
        s.closedErrs.count errCh + 1) := by
  have hstats : (cancelSubscription s ch errCh).statsListeners =
      (removeFirst s.statsListeners ch).1 := rfl
  have herrs : (cancelSubscription s ch errCh).errListeners =
      (removeFirst s.errListeners errCh).1 := rfl
  have hnm_stats : ch ∉ (cancelSubscription s ch errCh).statsListeners := by
    rw [hstats]; exact removeFirst_count_le_one hcs
  have hnm_errs : errCh ∉ (cancelSubscription s ch errCh).errListeners := by
    rw [herrs]; exact removeFirst_count_le_one hce
  refine ⟨?_, ?_, ?_, ?_⟩
  · intro h1 h2
    rw [cancelSubscription, serveRemoveStats_not_mem h1,
      serveRemoveErr_not_mem h2]
  · show serveRemoveErr
        (serveRemoveStats (cancelSubscription s ch errCh) ch) errCh =
      cancelSubscription s ch errCh
    rw [serveRemoveStats_not_mem hnm_stats, serveRemoveErr_not_mem hnm_errs]
  · intro hm
    refine ⟨hnm_stats, ?_⟩
    have hfound : (removeFirst s.statsListeners ch).2 = true :=
      removeFirst_found.mpr hm
    show (serveRemoveErr (serveRemoveStats s ch) errCh).closedStats.count ch = _
    have : (serveRemoveErr (serveRemoveStats s ch) errCh).closedStats =
        (serveRemoveStats s ch).closedStats := rfl
    rw [this]
    simp [serveRemoveStats, hfound, List.count_append]
  · intro hm
    refine ⟨hnm_errs, ?_⟩
    have hfound :
        (removeFirst (serveRemoveStats s ch).errListeners errCh).2 = true :=
      removeFirst_found.mpr hm
    show List.count errCh
        (if (removeFirst (serveRemoveStats s ch).errListeners errCh).2
          then (serveRemoveStats s ch).closedErrs ++ [errCh]
          else (serveRemoveStats s ch).closedErrs) =
      List.count errCh s.closedErrs + 1
    rw [if_pos hfound]
    have hcl : (serveRemoveStats s ch).closedErrs = s.closedErrs := rfl
    rw [hcl, List.count_append]
    simp

/-- C7 witness: registered subscription `(1, 2)` is removed and closed
once; cancelling again or cancelling unknown handles changes nothing. -/
theorem C7_cancel_idempotent_witness :
    (BroadcasterState.mk [1, 3] [2, 4] [] []).statsListeners.count 1 ≤ 1 ∧
    (BroadcasterState.mk [1, 3] [2, 4] [] []).errListeners.count 2 ≤ 1 ∧
    ((1 ∉ (BroadcasterState.mk [1, 3] [2, 4] [] []).statsListeners →
        2 ∉ (BroadcasterState.mk [1, 3] [2, 4] [] []).errListeners →
        cancelSubscription (BroadcasterState.mk [1, 3] [2, 4] [] []) 1 2 =
          BroadcasterState.mk [1, 3] [2, 4] [] []) ∧
      cancelSubscription
          (cancelSubscription (BroadcasterState.mk [1, 3] [2, 4] [] []) 1 2) 1 2 =
        cancelSubscription (BroadcasterState.mk [1, 3] [2, 4] [] []) 1 2 ∧
      (1 ∈ (BroadcasterState.mk [1, 3] [2, 4] [] []).statsListeners →
        1 ∉ (cancelSubscription
              (BroadcasterState.mk [1, 3] [2, 4] [] []) 1 2).statsListeners ∧
        (cancelSubscription
            (BroadcasterState.mk [1, 3] [2, 4] [] []) 1 2).closedStats.count 1 =
          (BroadcasterState.mk [1, 3] [2, 4] [] []).closedStats.count 1 + 1) ∧
      (2 ∈ (BroadcasterState.mk [1, 3] [2, 4] [] []).errListeners →
        2 ∉ (cancelSubscription
              (BroadcasterState.mk [1, 3] [2, 4] [] []) 1 2).errListeners ∧
        (cancelSubscription
            (BroadcasterState.mk [1, 3] [2, 4] [] []) 1 2).closedErrs.count 2 =
          (BroadcasterState.mk [1, 3] [2, 4] [] []).closedErrs.count 2 + 1)) :=
  ⟨by decide, by decide,
   C7_cancel_idempotent (BroadcasterState.mk [1, 3] [2, 4] [] []) 1 2
     (by decide) (by decide)⟩

/-- C8: across any number of log-stream interruptions with non-decreasing
interruption times, the sequence of `since` values used by the forward
calls is exactly the initial `logPointer` followed by the persisted cursor
writes (each retry uses the value written at the immediately preceding
interruption), and the cursor — initial value followed by its successive
writes — is non-decreasing. -/
theorem C8_cursor_monotone (init : Nat) (outs : List LogOutcome)
    (hchain : List.Chain' (· ≤ ·) (init :: allTimes outs)) :
    (logStreamerLoop init outs).1 =
      (init :: (logStreamerLoop init outs).2).take
        (logStreamerLoop init outs).1.length ∧
    List.Chain' (· ≤ ·) (init :: (logStreamerLoop init outs).2) := by
  induction outs generalizing init with
  | nil => simp [logStreamerLoop]
  | cons o rest ih =>
    cases o with
    | cancelled => simp [logStreamerLoop]
    | finished => simp [logStreamerLoop]
    | interrupted t =>
      have hall : allTimes (LogOutcome.interrupted t :: rest) =
          t :: allTimes rest := rfl
      rw [hall] at hchain
      rw [List.chain'_cons] at hchain
      obtain ⟨h1, h2⟩ := hchain
      obtain ⟨ihc, ihw⟩ := ih t h2
      constructor
      · simp only [logStreamerLoop, List.length_cons, List.take_succ_cons]
        exact congrArg (List.cons init) ihc
      · simp only [logStreamerLoop]
        rw [List.chain'_cons]
        exact ⟨h1, ihw⟩

/-- C8 witness: two interruptions at times 7 and 9 from initial cursor 5 —
the calls use 5, 7, 9 and the persisted writes 7, 9 are non-decreasing. -/
theorem C8_cursor_monotone_witness :
    List.Chain' (· ≤ ·) (5 :: allTimes
      [LogOutcome.interrupted 7, LogOutcome.interrupted 9,
       LogOutcome.finished]) ∧
    ((logStreamerLoop 5
        [LogOutcome.interrupted 7, LogOutcome.interrupted 9,
         LogOutcome.finished]).1 =
      (5 :: (logStreamerLoop 5
        [LogOutcome.interrupted 7, LogOutcome.interrupted 9,
         LogOutcome.finished]).2).take
        (logStreamerLoop 5
          [LogOutcome.interrupted 7, LogOutcome.interrupted 9,
           LogOutcome.finished]).1.length ∧
      List.Chain' (· ≤ ·) (5 :: (logStreamerLoop 5
        [LogOutcome.interrupted 7, LogOutcome.interrupted 9,
         LogOutcome.finished]).2)) :=
  ⟨by norm_num [allTimes, List.chain'_cons],
   C8_cursor_monotone 5
     [LogOutcome.interrupted 7, LogOutcome.interrupted 9,
      LogOutcome.finished] (by norm_num [allTimes, List.chain'_cons])⟩

end Podman
